import Mathlib

/-!
Verification of the gmail-organizer mailbox-synchronization engine.

This file is a shallow embedding of the worker job (`cmd/worker/main.go`,
type `WorkerJob`) and of the Gmail IMAP client it uses
(`internal/gcp/gmail.go`, type `Gmail`).  Pure decision logic is translated
into Lean functions; the interaction with the IMAP server is made explicit
by passing the server's responses (search results, fetched messages) as
function arguments and by returning the list of protocol commands a code
path issues, so that frame properties (what is and is not sent to the
target account) become provable statements.
-/

set_option linter.unusedVariables false

/-- Migration request produced by the collector and consumed by the migration
workers (struct `migrationRequest` in the worker job): the source account UID
of a message together with its Message-ID header value. -/
structure MigrationRequest where
  sourceGmailUID : Nat
  messageID : String
deriving DecidableEq, Repr

/-! ## Mailbox reconciliation (`WorkerJob.migrateMailboxes`) -/

/-- List of mailbox names that `WorkerJob.migrateMailboxes` passes to
`CreateMailboxes` on the TARGET account.  The loop in the source iterates over
the names fetched from the target account and keeps every name that is not
contained in the names fetched from the source account (variable
`missingMailboxNames` in the source). -/
def missingMailboxNames (sourceMailboxNames targetMailboxNames : List String) :
    List String :=
  targetMailboxNames.filter (fun n => !(sourceMailboxNames.contains n))

/-! ## Environment parsing in `newWorkerJob` -/

/-- Strings recognized as truthy by the worker job's environment parsing. -/
def truthyEnvValues : List String := ["t", "true", "y", "yes", "1", "ok", "on"]

/-- Dry-run flag computed by `newWorkerJob` from the DRY_RUN environment
variable: the value is compared against the empty string, and additionally
against the truthy-string list (the Go expression is
a disjunction of the two tests, in this order). -/
def dryRunEnabled (dryRunEnv : String) : Bool :=
  (dryRunEnv != "") || truthyEnvValues.contains dryRunEnv

/-! ## Message-ID search (`Gmail.FindUIDByMessageID`, internal/gcp) -/

/-- Embedding of `Gmail.FindUIDByMessageID`: given the UID list returned by
the target server's UID SEARCH for a Message-Id header, an empty result yields
no UID; otherwise the first UID of the result is returned.  No result shape
makes the function fail: an ambiguous match only logs a warning. -/
def findUIDByMessageID (searchResult : List Nat) : Except String (Option Nat) :=
  match searchResult with
  | [] => Except.ok none
  | u :: _ => Except.ok (some u)

/-- Whether `Gmail.FindUIDByMessageID` logs the multiple-UIDs warning: exactly
when the search returned more than one UID. -/
def findUIDWarnsMultiple (searchResult : List Nat) : Bool :=
  searchResult.length > 1

/-! ## Collector (`WorkerJob.collectMessagesForMigration`) -/

/-- Batch size used when fetching message envelopes
(constant `messageEnvelopeFetchBatchSize` in the worker job). -/
def messageEnvelopeFetchBatchSize : Nat := 500

/-- Splitting of a list into consecutive chunks of size `n`, the last chunk
possibly shorter, as done by `slices.Chunk` in the collector.  Go panics for
`n = 0`; the embedding returns `[]` there (the sole call site uses 500). -/
def chunksOf {α : Type} (n : Nat) (xs : List α) : List (List α) :=
  if h : xs.length = 0 ∨ n = 0 then []
  else xs.take n :: chunksOf n (xs.drop n)
termination_by xs.length
decreasing_by
  rw [List.length_drop]
  omega

/-- Ascending sort of the collected UIDs, as performed by `slices.Sort` in the
collector (`slog` message: Sorting for consistency). -/
def sortUIDs (uids : List Nat) : List Nat := uids.insertionSort (· ≤ ·)

/-- Working set computed by `collectMessagesForMigration`: all UIDs found in
the source account's All Mail mailbox, sorted ascending, then truncated to
`maxEmailsToProcess` when the sorted list is longer than that bound. -/
def collectUIDs (allUIDs : List Nat) (maxEmailsToProcess : Nat) : List Nat :=
  let sorted := sortUIDs allUIDs
  if sorted.length > maxEmailsToProcess then sorted.take maxEmailsToProcess
  else sorted

/-- Per-chunk emission loop of the collector: the messages of a chunk are
fetched with their envelopes (modelled by `fetchEnvelope`, mapping a UID to
the Message-ID of its envelope, or `none` when the envelope is nil); a nil
envelope aborts the pass with an error, otherwise one migration request per
message is sent to the channel.  Returns the requests emitted before any
error, and the error if one occurred. -/
def collectLoop (fetchEnvelope : Nat → Option String) :
    List Nat → List MigrationRequest × Option String
  | [] => ([], none)
  | u :: rest =>
    match fetchEnvelope u with
    | none => ([], some "failed to fetch envelope of UID")
    | some mid =>
      let r := collectLoop fetchEnvelope rest
      (⟨u, mid⟩ :: r.1, r.2)

/-- Chunk iteration of the collector: each chunk is processed in order by
`collectLoop`; the first failing chunk aborts the pass, keeping the requests
already emitted. -/
def chunkLoop (fetchEnvelope : Nat → Option String) :
    List (List Nat) → List MigrationRequest × Option String
  | [] => ([], none)
  | c :: rest =>
    match collectLoop fetchEnvelope c with
    | (reqs, some e) => (reqs, some e)
    | (reqs, none) =>
      (reqs ++ (chunkLoop fetchEnvelope rest).1, (chunkLoop fetchEnvelope rest).2)

/-- Embedding of `WorkerJob.collectMessagesForMigration`: find all UIDs in the
source All Mail mailbox, sort ascending, truncate to the configured maximum,
then process in chunks of 500, emitting one migration request per fetched
message into the workers' channel, in this list order.  The second component
is the error terminating the pass, if any. -/
def collectMessagesForMigration (fetchEnvelope : Nat → Option String)
    (allUIDs : List Nat) (maxEmailsToProcess : Nat) :
    List MigrationRequest × Option String :=
  chunkLoop fetchEnvelope
    (chunksOf messageEnvelopeFetchBatchSize (collectUIDs allUIDs maxEmailsToProcess))

/-! ## Label decoding (`Gmail.AppendMessage` / `Gmail.UpdateMessage`) -/

/-- Dynamically-typed element of a fetched X-GM-LABELS list: the IMAP library
yields values of interface type; an element is either a string or something
else. -/
inductive RawLabelItem where
  | str (s : String)
  | nonString
deriving DecidableEq, Repr

/-- Dynamically-typed value of the X-GM-LABELS fetch item: either a list of
dynamically-typed elements, or a non-list value. -/
inductive RawLabels where
  | list (items : List RawLabelItem)
  | nonList
deriving DecidableEq, Repr

/-- Element-wise decoding loop shared by `AppendMessage` and `UpdateMessage`:
strings are collected in order; the first non-string element aborts with the
invalid-label-type error. -/
def decodeLabelList : List RawLabelItem → Except String (List String)
  | [] => Except.ok []
  | RawLabelItem.str s :: rest => (decodeLabelList rest).map (s :: ·)
  | RawLabelItem.nonString :: _ => Except.error "invalid label type"

/-- Label-decoding step of `AppendMessage` and `UpdateMessage`: an absent
X-GM-LABELS item yields the empty label list; a present item must be a list
whose elements are all strings (otherwise the decode fails with an error), and
the decoded list is sorted ascending by `slices.Sort` before being stored. -/
def decodeAndSortLabels : Option RawLabels → Except String (List String)
  | none => Except.ok []
  | some RawLabels.nonList => Except.error "invalid labels type"
  | some (RawLabels.list items) =>
    (decodeLabelList items).map (fun labels => labels.insertionSort (· ≤ ·))

/-! ## Per-message migration (`WorkerJob.migrateMessage` and the target-side
operations `Gmail.AppendMessage` / `Gmail.UpdateMessage`) -/

/-- Message fetched from the source account by `FetchMessageByUID`: its UID,
Message-ID (from the envelope), flags, internal date, whether a body section
is available, and the raw X-GM-LABELS item when present in `msg.Items`. -/
structure FetchedMessage where
  uid : Nat
  messageId : String
  flags : List String
  internalDate : Nat
  hasBody : Bool
  labelsItem : Option RawLabels
deriving DecidableEq, Repr

/-- Protocol command issued while migrating one message, recorded so that
frame properties (which commands reach the target account) can be stated. -/
inductive MigCmd where
  | searchTargetByMessageId (messageId : String)
  | fetchSourceByUID (uid : Nat)
  | appendToTarget (flags : List String) (internalDate : Nat)
  | storeTargetLabels (uid : Nat) (labels : List String)
  | storeTargetFlags (uid : Nat) (flags : List String)
deriving DecidableEq, Repr

/-- Whether a command is the APPEND command sent to the target account. -/
def MigCmd.isAppendCmd : MigCmd → Bool
  | MigCmd.appendToTarget _ _ => true
  | _ => false

/-- Whether a command is a metadata STORE command sent to the target
account (label store or flag store). -/
def MigCmd.isStoreCmd : MigCmd → Bool
  | MigCmd.storeTargetLabels _ _ => true
  | MigCmd.storeTargetFlags _ _ => true
  | _ => false

/-- Embedding of `Gmail.AppendMessage` on the target account: validate that
the message has a UID and a body, issue the APPEND preserving flags and
internal date, locate the appended message by Message-ID (a further target
search, `targetSearch` giving the server's search result per Message-ID),
decode and sort the source labels, and store them with a silent UID STORE.
Returns the commands issued to the target alongside the result. -/
def appendMessage (targetSearch : String → List Nat) (msg : FetchedMessage) :
    List MigCmd × Except String Nat :=
  if msg.uid = 0 then ([], Except.error "cannot append message - it has no UID")
  else if !msg.hasBody then
    ([], Except.error "cannot append message - it is missing body")
  else
    let t1 := [MigCmd.appendToTarget msg.flags msg.internalDate,
               MigCmd.searchTargetByMessageId msg.messageId]
    match findUIDByMessageID (targetSearch msg.messageId) with
    | Except.error e => (t1, Except.error e)
    | Except.ok none =>
      (t1, Except.error "could not find UID for newly appended message")
    | Except.ok (some uid) =>
      match decodeAndSortLabels msg.labelsItem with
      | Except.error e => (t1, Except.error e)
      | Except.ok labels =>
        (t1 ++ [MigCmd.storeTargetLabels uid labels], Except.ok uid)

/-- Embedding of `Gmail.UpdateMessage` on the target account: require a
Message-ID, locate the existing target message by it, decode and sort the
source labels, store them silently, then store the source flags.  No APPEND
is ever issued.  Returns the commands issued to the target alongside the
result. -/
def updateMessage (targetSearch : String → List Nat) (msg : FetchedMessage) :
    List MigCmd × Except String Unit :=
  if msg.messageId = "" then
    ([], Except.error "cannot update message - it has no Message-ID")
  else
    let t1 := [MigCmd.searchTargetByMessageId msg.messageId]
    match findUIDByMessageID (targetSearch msg.messageId) with
    | Except.error e => (t1, Except.error e)
    | Except.ok none =>
      (t1, Except.error "could not find UID for message in target account")
    | Except.ok (some uid) =>
      match decodeAndSortLabels msg.labelsItem with
      | Except.error e => (t1, Except.error e)
      | Except.ok labels =>
        (t1 ++ [MigCmd.storeTargetLabels uid labels,
                MigCmd.storeTargetFlags uid msg.flags], Except.ok ())

/-- Embedding of `WorkerJob.appendNewMessageToTargetAccount`: fetch the full
message from the source account (`sourceFetch` giving the fetch outcome per
UID, `none` meaning the fetch failed); in dry-run mode only log, otherwise
invoke `AppendMessage` on the target account. -/
def appendNewMessageToTargetAccount (dryRun : Bool)
    (targetSearch : String → List Nat)
    (sourceFetch : Nat → Option FetchedMessage) (sourceGmailUID : Nat) :
    List MigCmd × Except String Unit :=
  match sourceFetch sourceGmailUID with
  | none => ([MigCmd.fetchSourceByUID sourceGmailUID],
             Except.error "failed to fetch message from source account")
  | some msg =>
    if dryRun then ([MigCmd.fetchSourceByUID sourceGmailUID], Except.ok ())
    else
      let r := appendMessage targetSearch msg
      (MigCmd.fetchSourceByUID sourceGmailUID :: r.1, r.2.map (fun _ => ()))

/-- Embedding of `WorkerJob.updateExistingMessageInTargetAccount`: fetch the
message metadata from the source account; in dry-run mode only log, otherwise
invoke `UpdateMessage` on the target account. -/
def updateExistingMessageInTargetAccount (dryRun : Bool)
    (targetSearch : String → List Nat)
    (sourceFetch : Nat → Option FetchedMessage) (sourceGmailUID : Nat)
    (messageID : String) : List MigCmd × Except String Unit :=
  match sourceFetch sourceGmailUID with
  | none => ([MigCmd.fetchSourceByUID sourceGmailUID],
             Except.error "failed to fetch message from source account")
  | some msg =>
    if dryRun then ([MigCmd.fetchSourceByUID sourceGmailUID], Except.ok ())
    else
      let r := updateMessage targetSearch msg
      (MigCmd.fetchSourceByUID sourceGmailUID :: r.1, r.2)

/-- Embedding of `WorkerJob.migrateMessage`: first search the target account
for an existing message with the request's Message-ID; when no UID is found
take the append path, when a UID is found take the update path. -/
def migrateMessage (dryRun : Bool) (targetSearch : String → List Nat)
    (sourceFetch : Nat → Option FetchedMessage)
    (sourceGmailUID : Nat) (messageID : String) :
    List MigCmd × Except String Unit :=
  let t0 := [MigCmd.searchTargetByMessageId messageID]
  match findUIDByMessageID (targetSearch messageID) with
  | Except.error e =>
    (t0, Except.error "failed to search for message in target account")
  | Except.ok none =>
    let r := appendNewMessageToTargetAccount dryRun targetSearch sourceFetch
      sourceGmailUID
    (t0 ++ r.1, r.2)
  | Except.ok (some _) =>
    let r := updateExistingMessageInTargetAccount dryRun targetSearch
      sourceFetch sourceGmailUID messageID
    (t0 ++ r.1, r.2)

/-! ## Worker loop (`WorkerJob.migrateMessages`) and run aggregation
(`WorkerJob.Run`) -/

/-- Embedding of one migration worker's loop (`WorkerJob.migrateMessages`):
items taken from the channel are either a request or the nil end-of-stream
sentinel; channel closure is the end of the item list.  The worker stops
cleanly on the sentinel or on closure; a request whose migration fails makes
the worker return that error immediately.  Returns the requests the worker
took before stopping, and its outcome. -/
def migrateMessages (migrate : MigrationRequest → Except String Unit) :
    List (Option MigrationRequest) → List MigrationRequest × Except String Unit
  | [] => ([], Except.ok ())
  | none :: _ => ([], Except.ok ())
  | some r :: rest =>
    match migrate r with
    | Except.error e =>
      ([r], Except.error ("failed to migrate message: " ++ e))
    | Except.ok () =>
      let res := migrateMessages migrate rest
      (r :: res.1, res.2)

/-- Aggregation of the worker results in `WorkerJob.Run`: each worker's
result is received from the error channel; the first error received is
returned as the run's error, success only once every worker finished without
error. -/
def workersOutcome : List (Except String Unit) → Except String Unit
  | [] => Except.ok ()
  | Except.ok () :: rest => workersOutcome rest
  | Except.error e :: _ =>
    Except.error ("failed during message migration: " ++ e)

/-- Embedding of `WorkerJob.Run`'s outcome: a collector error is fatal, and
otherwise the first worker error received is fatal; the run succeeds only if
the collector and all workers finished without error. -/
def runOutcome (collectorResult : Except String Unit)
    (workerResults : List (Except String Unit)) : Except String Unit :=
  match collectorResult with
  | Except.error e =>
    Except.error ("failed during message collection for migration: " ++ e)
  | Except.ok () => workersOutcome workerResults

/-- Whether an outcome is a success. -/
def exceptIsOk {α : Type} : Except String α → Bool
  | Except.ok _ => true
  | Except.error _ => false

/-! ## Connection pool (`NewGmail`, `Gmail.getIMAPConnection`,
`Gmail.releaseIMAPConnection`, internal/gcp) -/

/-- A pooled IMAP connection: an identity and whether its lightweight no-op
health check (`c.Noop()`) would currently succeed. -/
structure PoolConn where
  id : Nat
  healthy : Bool
deriving DecidableEq, Repr

/-- State of one account's connection pool: the idle connections sitting in
the buffered channel `g.conns` (in channel order), the connections currently
checked out by callers, and a counter supplying identities for freshly
created connections. -/
structure PoolState where
  idle : List PoolConn
  out : List PoolConn
  nextId : Nat
deriving DecidableEq, Repr

/-- Observable event of one pool transition. -/
inductive PoolEvent where
  | acquired (c : PoolConn)
  | acquireFailed
  | released (c : PoolConn)
  | timedOut
deriving DecidableEq, Repr

/-- One transition of the connection pool, following `getIMAPConnection` and
`releaseIMAPConnection`:
an acquisition receives the connection at the head of the channel and
health-checks it with a no-op; a healthy connection is handed to the caller,
while an unhealthy one is logged out and discarded, and the retrying factory
creates a fresh connection that is handed out in its place (or the factory
fails and the acquisition returns an error); an acquisition may also time out
without touching the pool; a release sends a checked-out connection back to
the channel. -/
inductive PoolStep (N : Nat) : PoolState → PoolEvent → PoolState → Prop
  | acquireHealthy (c : PoolConn) (rest out : List PoolConn) (nid : Nat) :
      c.healthy = true →
      PoolStep N ⟨c :: rest, out, nid⟩ (PoolEvent.acquired c)
        ⟨rest, c :: out, nid⟩
  | acquireReplace (c : PoolConn) (rest out : List PoolConn) (nid : Nat) :
      c.healthy = false →
      PoolStep N ⟨c :: rest, out, nid⟩ (PoolEvent.acquired ⟨nid, true⟩)
        ⟨rest, ⟨nid, true⟩ :: out, nid + 1⟩
  | acquireReplaceFailed (c : PoolConn) (rest out : List PoolConn) (nid : Nat) :
      c.healthy = false →
      PoolStep N ⟨c :: rest, out, nid⟩ PoolEvent.acquireFailed ⟨rest, out, nid⟩
  | acquireTimeout (s : PoolState) :
      PoolStep N s PoolEvent.timedOut s
  | release (c : PoolConn) (idle out : List PoolConn) (nid : Nat) :
      c ∈ out →
      PoolStep N ⟨idle, out, nid⟩ (PoolEvent.released c)
        ⟨idle ++ [c], out.erase c, nid⟩

/-- Initial pool states produced by `NewGmail` with connection limit `N`: the
constructor launches `N` goroutines, each contributing at most one fresh
connection to the channel (a goroutine whose connect-and-login fails
contributes nothing), and nothing is checked out yet. -/
def PoolInit (N : Nat) (s : PoolState) : Prop :=
  s.out = [] ∧ s.idle.length ≤ N

/-- Pool states reachable during a run: an initial state, or any state
obtained from a reachable one by a pool transition. -/
inductive PoolReachable (N : Nat) : PoolState → Prop
  | init (s : PoolState) : PoolInit N s → PoolReachable N s
  | step (s : PoolState) (e : PoolEvent) (s' : PoolState) :
      PoolReachable N s → PoolStep N s e s' → PoolReachable N s'

/-! ## Blocking wait of `getIMAPConnection` (C8) -/

/-- Result of the blocking wait inside `getIMAPConnection`. -/
inductive AcquireWaitResult where
  | acquiredConn
  | timedOutErr
deriving DecidableEq, Repr

/-- Embedding of the blocking wait in `getIMAPConnection`: the Go `select`
has exactly two cases, a receive from the idle-connection channel `g.conns`
and the acquisition timer `timer.C` (started with `g.getConnTimeout`).  The
run's cancellation token (`ctx`) is a parameter of the function but is
consulted only by the replacement-connection factory, not by this wait, so
the embedding takes the environment schedule — when an idle connection
becomes available and when the token is cancelled — and computes the wait's
result and the time at which the wait ends; the cancellation instant is an
argument the wait does not inspect, exactly as the `select` does not have a
case for it. -/
def acquireWait (getConnTimeout : Nat) (connArrivesAt : Option Nat)
    (ctxCancelAt : Option Nat) : AcquireWaitResult × Nat :=
  match connArrivesAt with
  | some t =>
    if t < getConnTimeout then (AcquireWaitResult.acquiredConn, t)
    else (AcquireWaitResult.timedOutErr, getConnTimeout)
  | none => (AcquireWaitResult.timedOutErr, getConnTimeout)

/-- The acquisition timeout the worker job passes to `NewGmail` for both
accounts: one hour, in seconds. -/
def workerGetConnTimeout : Nat := 3600

/-! ## Theorems -/

/-- Claim C2 (code bug): the spec requires that every mailbox listed in the
source account and absent from the target account be created on the target
before messages are processed; `migrateMailboxes` instead iterates over the
TARGET account's names and creates, on the target, the names absent from the
SOURCE.  At the spec's own scenario — source lists Projects/X, target lists
nothing — the list handed to `CreateMailboxes` on the target is empty, so
Projects/X is never created; a name only the target has is the one that gets
(re)created on the target. -/
theorem migrateMailboxes_creates_wrong_direction :
    missingMailboxNames ["Projects/X"] [] = [] ∧
    missingMailboxNames [] ["Receipts"] = ["Receipts"] := by
  exact ⟨rfl, rfl⟩

/-- Helper: the dry-run flag equals the plain non-emptiness test on the
DRY_RUN value, since every truthy string in the second disjunct is itself
non-empty. -/
theorem dryRunEnabled_eq_bne (s : String) : dryRunEnabled s = (s != "") := by
  by_cases h : s = ""
  · subst h; rfl
  · have h1 : (s != "") = true := by simp [h]
    simp [dryRunEnabled, h1]

/-- Claim C9: dry-run mode is enabled exactly when the DRY_RUN environment
variable is a non-empty string — including the values false and 0 — and is
disabled only when DRY_RUN is unset or empty (an unset variable reads as the
empty string via `os.Getenv`). -/
theorem dry_run_enabled_iff_env_nonempty (s : String) :
    (dryRunEnabled s = true ↔ s ≠ "") ∧
    dryRunEnabled "false" = true ∧ dryRunEnabled "0" = true ∧
    dryRunEnabled "" = false := by
  refine ⟨?_, by decide, by decide, by decide⟩
  rw [dryRunEnabled_eq_bne]
  constructor
  · intro h hs
    subst hs
    simp at h
  · intro h
    simp [h]

/-- Claim C7: a Message-ID search returning more than one UID makes
`FindUIDByMessageID` log a warning and return the first UID of the result,
not an error. -/
theorem findUID_multiple_returns_first_with_warning (u v : Nat)
    (rest : List Nat) :
    findUIDByMessageID (u :: v :: rest) = Except.ok (some u) ∧
    findUIDWarnsMultiple (u :: v :: rest) = true := by
  refine ⟨rfl, ?_⟩
  simp [findUIDWarnsMultiple]

/-- Claim C8 counterexample: with the run's token cancelled at time 0, no
idle connection ever arriving, and the worker's one-hour acquisition timeout,
the blocking wait of `getIMAPConnection` still ends only when the full
timeout elapses, with the timeout error — it does not return promptly upon
cancellation. -/
theorem acquire_wait_blocks_despite_cancellation_cex :
    acquireWait workerGetConnTimeout none (some 0) =
      (AcquireWaitResult.timedOutErr, 3600) ∧ (0 : Nat) < 3600 := by
  exact ⟨rfl, by decide⟩

/-- Claim C8 (amended): the blocking wait in pool acquisition selects only on
idle-connection availability and its own acquisition timer; it does not
observe the cancellation token, so its outcome is independent of when (or
whether) cancellation fires, and when no idle connection arrives a blocked
acquisition waits the full acquisition timeout and fails with the timeout
error (cancellation is observed only inside the backoff-retrying connection
factory, not by this wait). -/
theorem acquire_wait_ignores_cancellation (T : Nat) (conn : Option Nat)
    (c c' : Option Nat) :
    acquireWait T conn c = acquireWait T conn c' ∧
    acquireWait T none c = (AcquireWaitResult.timedOutErr, T) := by
  constructor
  · cases conn <;> rfl
  · rfl

/-- Helper: `UpdateMessage` never issues an APPEND command. -/
theorem updateMessage_no_append (ts : String → List Nat)
    (msg : FetchedMessage) :
    ∀ c ∈ (updateMessage ts msg).1, c.isAppendCmd = false := by
  intro c hc
  unfold updateMessage at hc
  by_cases hmid : msg.messageId = ""
  · simp [hmid] at hc
  · rw [if_neg hmid] at hc
    rcases hts : ts msg.messageId with _ | ⟨u0, us⟩ <;>
      simp [findUIDByMessageID, hts] at hc
    · subst hc; rfl
    · rcases hdec : decodeAndSortLabels msg.labelsItem with e | ls <;>
        rw [hdec] at hc <;> simp at hc
      · subst hc; rfl
      · rcases hc with rfl | rfl | rfl <;> rfl

/-- Helper: the command trace of a dry-run `migrateMessage` is exactly the
target Message-ID search followed by the source fetch, on both the append
and the update path. -/
theorem migrateMessage_dry_trace (ts : String → List Nat)
    (sf : Nat → Option FetchedMessage) (uid : Nat) (mid : String) :
    (migrateMessage true ts sf uid mid).1 =
      [MigCmd.searchTargetByMessageId mid, MigCmd.fetchSourceByUID uid] := by
  rcases hts : ts mid with _ | ⟨u0, us⟩ <;>
    rcases hsf : sf uid with _ | msg <;>
      simp [migrateMessage, appendNewMessageToTargetAccount,
        updateExistingMessageInTargetAccount, findUIDByMessageID, hts, hsf]

/-- Helper: the command trace of a non-dry `migrateMessage` extends the
dry-run trace (the search and the source fetch happen identically, then the
mutating commands follow). -/
theorem migrateMessage_wet_trace_extends (ts : String → List Nat)
    (sf : Nat → Option FetchedMessage) (uid : Nat) (mid : String) :
    ∃ t, (migrateMessage false ts sf uid mid).1 =
      [MigCmd.searchTargetByMessageId mid, MigCmd.fetchSourceByUID uid] ++ t := by
  rcases hts : ts mid with _ | ⟨u0, us⟩ <;>
    rcases hsf : sf uid with _ | msg
  · exact ⟨[], by simp [migrateMessage, appendNewMessageToTargetAccount,
      findUIDByMessageID, hts, hsf]⟩
  · exact ⟨(appendMessage ts msg).1, by
      simp [migrateMessage, appendNewMessageToTargetAccount,
        findUIDByMessageID, hts, hsf]⟩
  · exact ⟨[], by simp [migrateMessage, updateExistingMessageInTargetAccount,
      findUIDByMessageID, hts, hsf]⟩
  · exact ⟨(updateMessage ts msg).1, by
      simp [migrateMessage, updateExistingMessageInTargetAccount,
        findUIDByMessageID, hts, hsf]⟩

/-- Claim C5: with dry-run enabled, no APPEND and no STORE command is issued
to the target account for any migration request, while the target Message-ID
search and the source message fetch occur exactly as in a non-dry run (the
non-dry trace is the dry trace followed by the mutating commands). -/
theorem dry_run_issues_no_append_or_store (targetSearch : String → List Nat)
    (sourceFetch : Nat → Option FetchedMessage) (uid : Nat) (mid : String) :
    (∀ c ∈ (migrateMessage true targetSearch sourceFetch uid mid).1,
        c.isAppendCmd = false ∧ c.isStoreCmd = false) ∧
    ∃ t, (migrateMessage false targetSearch sourceFetch uid mid).1 =
        (migrateMessage true targetSearch sourceFetch uid mid).1 ++ t := by
  rw [migrateMessage_dry_trace]
  constructor
  · intro c hc
    simp at hc
    rcases hc with rfl | rfl
    · exact ⟨rfl, rfl⟩
    · exact ⟨rfl, rfl⟩
  · exact migrateMessage_wet_trace_extends targetSearch sourceFetch uid mid

/-- Claim C1: `migrateMessage` first searches the target account by the
request's Message-ID (the search is the first command of every trace), and
when that search returns a UID the update path is taken, which issues no
APPEND — no APPEND is ever issued for a Message-ID already present in the
target at decision time. -/
theorem migrateMessage_no_append_when_messageID_found (dryRun : Bool)
    (targetSearch : String → List Nat)
    (sourceFetch : Nat → Option FetchedMessage) (uid : Nat) (mid : String)
    (u : Nat)
    (hfound : findUIDByMessageID (targetSearch mid) = Except.ok (some u)) :
    (migrateMessage dryRun targetSearch sourceFetch uid mid).1.head? =
      some (MigCmd.searchTargetByMessageId mid) ∧
    ∀ c ∈ (migrateMessage dryRun targetSearch sourceFetch uid mid).1,
      c.isAppendCmd = false := by
  constructor
  · unfold migrateMessage
    rw [hfound]
    simp
  · intro c hc
    unfold migrateMessage at hc
    rw [hfound] at hc
    simp at hc
    rcases hc with rfl | hc
    · rfl
    · unfold updateExistingMessageInTargetAccount at hc
      rcases hsf : sourceFetch uid with _ | msg <;> rw [hsf] at hc
      · simp at hc; subst hc; rfl
      · cases dryRun
        · simp at hc
          rcases hc with rfl | hc
          · rfl
          · exact updateMessage_no_append targetSearch msg c hc
        · simp at hc; subst hc; rfl

/-- Concrete fixture message used by the claim witnesses: UID 4, Message-ID
mid-1, one flag, an internal date, a body, and one string label. -/
def msgFixture : FetchedMessage :=
  ⟨4, "mid-1", ["Seen"], 1700000000, true,
    some (RawLabels.list [RawLabelItem.str "work"])⟩

/-- Witness for claim C1: with a target search that finds UID 7 for the
fixture's Message-ID, the migration of the fixture issues the search first
and no APPEND at all. -/
theorem migrateMessage_no_append_witness :
    (migrateMessage false (fun _ => [7]) (fun _ => some msgFixture)
        4 "mid-1").1.head? = some (MigCmd.searchTargetByMessageId "mid-1") ∧
    ∀ c ∈ (migrateMessage false (fun _ => [7]) (fun _ => some msgFixture)
        4 "mid-1").1, c.isAppendCmd = false :=
  migrateMessage_no_append_when_messageID_found false (fun _ => [7])
    (fun _ => some msgFixture) 4 "mid-1" 7 rfl

/-- Helper: a successful label decode yields an ascending-sorted list. -/
theorem decodeAndSortLabels_sorted (x : Option RawLabels) (l : List String)
    (h : decodeAndSortLabels x = Except.ok l) : List.Sorted (· ≤ ·) l := by
  cases x with
  | none =>
    simp [decodeAndSortLabels] at h
    subst h
    exact List.sorted_nil
  | some raw =>
    cases raw with
    | nonList => simp [decodeAndSortLabels] at h
    | list items =>
      rcases hd : decodeLabelList items with e | ls
      · simp [decodeAndSortLabels, hd, Except.map] at h
      · simp only [decodeAndSortLabels, hd, Except.map, Except.ok.injEq] at h
        subst h
        exact List.sorted_insertionSort (· ≤ ·) ls

/-- Helper: every label STORE issued by `AppendMessage` carries a sorted
label list, and when the label decode fails `AppendMessage` returns an error
and issues no label STORE at all. -/
theorem appendMessage_labels (ts : String → List Nat) (msg : FetchedMessage) :
    (∀ uid labels,
      MigCmd.storeTargetLabels uid labels ∈ (appendMessage ts msg).1 →
        List.Sorted (· ≤ ·) labels) ∧
    (∀ e, decodeAndSortLabels msg.labelsItem = Except.error e →
      exceptIsOk (appendMessage ts msg).2 = false ∧
      ∀ uid labels,
        MigCmd.storeTargetLabels uid labels ∉ (appendMessage ts msg).1) := by
  unfold appendMessage
  by_cases h0 : msg.uid = 0
  · simp [h0, exceptIsOk]
  · rw [if_neg h0]
    by_cases hb : msg.hasBody
    · simp only [hb, Bool.not_true, Bool.false_eq_true, if_false]
      rcases hts : ts msg.messageId with _ | ⟨u0, us⟩ <;>
        simp only [findUIDByMessageID, hts]
      · constructor
        · intro uid labels hmem
          simp at hmem
        · intro e he
          refine ⟨rfl, ?_⟩
          intro uid labels hmem
          simp at hmem
      · rcases hdec : decodeAndSortLabels msg.labelsItem with e' | ls
        · constructor
          · intro uid labels hmem
            simp at hmem
          · intro e he
            refine ⟨rfl, ?_⟩
            intro uid labels hmem
            simp at hmem
        · constructor
          · intro uid labels hmem
            simp at hmem
            rcases hmem with ⟨h1, h2⟩
            subst h2
            exact decodeAndSortLabels_sorted msg.labelsItem labels hdec
          · intro e he
            simp at he
    · simp [hb, exceptIsOk]

/-- Helper: every label STORE issued by `UpdateMessage` carries a sorted
label list, and when the label decode fails `UpdateMessage` returns an error
and issues no label STORE at all. -/
theorem updateMessage_labels (ts : String → List Nat) (msg : FetchedMessage) :
    (∀ uid labels,
      MigCmd.storeTargetLabels uid labels ∈ (updateMessage ts msg).1 →
        List.Sorted (· ≤ ·) labels) ∧
    (∀ e, decodeAndSortLabels msg.labelsItem = Except.error e →
      exceptIsOk (updateMessage ts msg).2 = false ∧
      ∀ uid labels,
        MigCmd.storeTargetLabels uid labels ∉ (updateMessage ts msg).1) := by
  unfold updateMessage
  by_cases hmid : msg.messageId = ""
  · simp [hmid, exceptIsOk]
  · rw [if_neg hmid]
    rcases hts : ts msg.messageId with _ | ⟨u0, us⟩ <;>
      simp only [findUIDByMessageID, hts]
    · constructor
      · intro uid labels hmem
        simp at hmem
      · intro e he
        refine ⟨rfl, ?_⟩
        intro uid labels hmem
        simp at hmem
    · rcases hdec : decodeAndSortLabels msg.labelsItem with e' | ls
      · constructor
        · intro uid labels hmem
          simp at hmem
        · intro e he
          refine ⟨rfl, ?_⟩
          intro uid labels hmem
          simp at hmem
      · constructor
        · intro uid labels hmem
          simp at hmem
          rcases hmem with ⟨h1, h2⟩
          subst h2
          exact decodeAndSortLabels_sorted msg.labelsItem labels hdec
        · intro e he
          simp at he

/-- Claim C10: before any label STORE on a target message, both
`AppendMessage` and `UpdateMessage` sort the decoded label list ascending,
and when the fetched X-GM-LABELS item is present but does not decode to a
list of strings, both return the decoding error without issuing the label
STORE command at all. -/
theorem label_decode_sorted_and_fails_closed (targetSearch : String → List Nat)
    (msg : FetchedMessage) :
    (∀ uid labels,
      MigCmd.storeTargetLabels uid labels ∈ (appendMessage targetSearch msg).1 →
        List.Sorted (· ≤ ·) labels) ∧
    (∀ uid labels,
      MigCmd.storeTargetLabels uid labels ∈ (updateMessage targetSearch msg).1 →
        List.Sorted (· ≤ ·) labels) ∧
    (∀ e, decodeAndSortLabels msg.labelsItem = Except.error e →
      exceptIsOk (appendMessage targetSearch msg).2 = false ∧
      exceptIsOk (updateMessage targetSearch msg).2 = false ∧
      (∀ uid labels,
        MigCmd.storeTargetLabels uid labels ∉ (appendMessage targetSearch msg).1) ∧
      (∀ uid labels,
        MigCmd.storeTargetLabels uid labels ∉ (updateMessage targetSearch msg).1)) := by
  refine ⟨(appendMessage_labels targetSearch msg).1,
    (updateMessage_labels targetSearch msg).1, ?_⟩
  intro e he
  obtain ⟨ha1, ha2⟩ := (appendMessage_labels targetSearch msg).2 e he
  obtain ⟨hu1, hu2⟩ := (updateMessage_labels targetSearch msg).2 e he
  exact ⟨ha1, hu1, ha2, hu2⟩

/-- Fixture message whose X-GM-LABELS item is present but contains a
non-string element, used by the C10 witness. -/
def msgBadLabels : FetchedMessage :=
  ⟨5, "mid-2", ["Seen"], 1700000000, true,
    some (RawLabels.list [RawLabelItem.str "b", RawLabelItem.nonString])⟩

/-- Witness for claim C10: at a fixture whose labels item holds a non-string
element, the decode fails and neither operation issues a label STORE. -/
theorem label_decode_fails_closed_witness :
    exceptIsOk (appendMessage (fun _ => [7]) msgBadLabels).2 = false ∧
    exceptIsOk (updateMessage (fun _ => [7]) msgBadLabels).2 = false ∧
    (∀ uid labels, MigCmd.storeTargetLabels uid labels ∉
      (appendMessage (fun _ => [7]) msgBadLabels).1) ∧
    (∀ uid labels, MigCmd.storeTargetLabels uid labels ∉
      (updateMessage (fun _ => [7]) msgBadLabels).1) :=
  (label_decode_sorted_and_fails_closed (fun _ => [7]) msgBadLabels).2.2
    "invalid label type" rfl

/-- Per-message migration outcome used by the C3 scenario: the request with
source UID 1 fails, every other request succeeds. -/
def migrateFailingOn1 (r : MigrationRequest) : Except String Unit :=
  if r.sourceGmailUID = 1 then Except.error "boom" else Except.ok ()

/-- Claim C3 counterexample: with two requests queued and the first one
failing, the consuming worker does NOT continue to the next request — it
stops after the failing request (the second request is never taken) and
returns an error, and `Run` turns that single per-message failure into the
fatal outcome of the whole run. -/
theorem worker_aborts_on_message_failure_cex :
    migrateMessages migrateFailingOn1
        [some ⟨1, "a"⟩, some ⟨2, "b"⟩, none] =
      ([⟨1, "a"⟩], Except.error "failed to migrate message: boom") ∧
    exceptIsOk (runOutcome (Except.ok ())
      [(migrateMessages migrateFailingOn1
          [some ⟨1, "a"⟩, some ⟨2, "b"⟩, none]).2]) = false := by
  exact ⟨rfl, rfl⟩

/-- Claim C3 (amended): a migration request whose per-message migration
fails makes the consuming worker return at once with an error wrapping the
failure — the requests after it are not taken from the queue — and `Run`
treats that worker error as fatal for the whole run. -/
theorem worker_per_message_failure_is_fatal
    (migrate : MigrationRequest → Except String Unit)
    (r : MigrationRequest) (rest : List (Option MigrationRequest)) (e : String)
    (hfail : migrate r = Except.error e) :
    migrateMessages migrate (some r :: rest) =
      ([r], Except.error ("failed to migrate message: " ++ e)) ∧
    exceptIsOk (runOutcome (Except.ok ())
      [(migrateMessages migrate (some r :: rest)).2]) = false := by
  have h1 : migrateMessages migrate (some r :: rest) =
      ([r], Except.error ("failed to migrate message: " ++ e)) := by
    unfold migrateMessages
    rw [hfail]
  refine ⟨h1, ?_⟩
  rw [h1]
  rfl

/-- Witness for the amended claim C3: the concrete failing scenario. -/
theorem worker_per_message_failure_is_fatal_witness :
    migrateMessages migrateFailingOn1 [some ⟨1, "a"⟩, some ⟨2, "b"⟩, none] =
      ([⟨1, "a"⟩], Except.error ("failed to migrate message: " ++ "boom")) ∧
    exceptIsOk (runOutcome (Except.ok ())
      [(migrateMessages migrateFailingOn1
          [some ⟨1, "a"⟩, some ⟨2, "b"⟩, none]).2]) = false :=
  worker_per_message_failure_is_fatal migrateFailingOn1 ⟨1, "a"⟩
    [some ⟨2, "b"⟩, none] "boom" rfl

/-- Helper: concatenating the chunks gives back the original list. -/
theorem chunksOf_flatten {α : Type} (n : Nat) (hn : n ≠ 0) :
    ∀ (k : Nat) (xs : List α), xs.length ≤ k → (chunksOf n xs).flatten = xs := by
  intro k
  induction k with
  | zero =>
    intro xs hx
    have hxe : xs = [] := List.length_eq_zero.mp (Nat.le_zero.mp hx)
    subst hxe
    rw [chunksOf]
    simp
  | succ k ih =>
    intro xs hx
    rw [chunksOf]
    by_cases hc : xs.length = 0 ∨ n = 0
    · rcases hc with hc | hc
      · have hxe : xs = [] := List.length_eq_zero.mp hc
        subst hxe
        simp
      · exact absurd hc hn
    · rw [dif_neg hc]
      rw [List.flatten_cons]
      rw [ih (xs.drop n) (by rw [List.length_drop]; omega)]
      exact List.take_append_drop n xs

/-- Helper: when every UID of a chunk has a fetchable envelope, the chunk
loop emits exactly one request per UID, in chunk order, with no error. -/
theorem collectLoop_ok (f : Nat → Option String) :
    ∀ chunk : List Nat, (∀ u ∈ chunk, (f u).isSome = true) →
      (collectLoop f chunk).2 = none ∧
      (collectLoop f chunk).1.map (fun r => r.sourceGmailUID) = chunk := by
  intro chunk
  induction chunk with
  | nil => intro h; exact ⟨rfl, rfl⟩
  | cons u rest ih =>
    intro h
    have hu : (f u).isSome = true := h u (by simp)
    rcases hfu : f u with _ | mid
    · rw [hfu] at hu; simp at hu
    · have hrest := ih (fun v hv => h v (by simp [hv]))
      unfold collectLoop
      rw [hfu]
      simp only [List.map_cons]
      exact ⟨hrest.1, by rw [hrest.2]⟩

/-- Helper: when every UID of every chunk has a fetchable envelope, the
chunked collection emits exactly one request per UID, in order, with no
error. -/
theorem chunkLoop_ok (f : Nat → Option String) :
    ∀ chunks : List (List Nat), (∀ u ∈ chunks.flatten, (f u).isSome = true) →
      (chunkLoop f chunks).2 = none ∧
      (chunkLoop f chunks).1.map (fun r => r.sourceGmailUID) =
        chunks.flatten := by
  intro chunks
  induction chunks with
  | nil => intro h; exact ⟨rfl, rfl⟩
  | cons c rest ih =>
    intro h
    have hc := collectLoop_ok f c (fun u hu => h u (by simp [hu]))
    have hrest := ih (fun u hu => h u (by simp [hu]))
    rcases hcl : collectLoop f c with ⟨reqs, err⟩
    rw [hcl] at hc
    have hce : err = none := hc.1
    have hcm : reqs.map (fun r => r.sourceGmailUID) = c := hc.2
    subst hce
    unfold chunkLoop
    rw [hcl]
    simp only [List.flatten_cons, List.map_append]
    exact ⟨hrest.1, by rw [hcm, hrest.2]⟩

/-- Helper: the working set is the ascending-sorted UID list truncated to
the configured maximum. -/
theorem collectUIDs_eq_take (allUIDs : List Nat) (m : Nat) :
    collectUIDs allUIDs m = (sortUIDs allUIDs).take m := by
  unfold collectUIDs
  by_cases h : (sortUIDs allUIDs).length > m
  · simp [h]
  · simp only [h, if_false]
    exact (List.take_of_length_le (Nat.le_of_not_lt h)).symm

/-- Helper: sorting is invariant under permutation of the input, since two
sorted lists with the same elements coincide. -/
theorem sortUIDs_perm_eq (l l' : List Nat) (h : l.Perm l') :
    sortUIDs l = sortUIDs l' := by
  unfold sortUIDs
  exact List.eq_of_perm_of_sorted
    (((List.perm_insertionSort (· ≤ ·) l).trans h).trans
      (List.perm_insertionSort (· ≤ ·) l').symm)
    (List.sorted_insertionSort (· ≤ ·) l)
    (List.sorted_insertionSort (· ≤ ·) l')

/-- Claim C4: when every UID of the working set has a fetchable envelope,
the collector emits one migration request per UID of the ascending-sorted
UID list truncated to its first maxCount elements, in that ascending order,
with no error; and two collection passes over the same UID set (any
permutation) with the same maxCount produce identical output. -/
theorem collector_emits_sorted_truncated_deterministic
    (fetchEnvelope : Nat → Option String) (allUIDs allUIDs' : List Nat)
    (maxCount : Nat)
    (hfetch : ∀ u ∈ collectUIDs allUIDs maxCount,
      (fetchEnvelope u).isSome = true)
    (hperm : allUIDs.Perm allUIDs') :
    (collectMessagesForMigration fetchEnvelope allUIDs maxCount).2 = none ∧
    (collectMessagesForMigration fetchEnvelope allUIDs maxCount).1.map
        (fun r => r.sourceGmailUID) = (sortUIDs allUIDs).take maxCount ∧
    List.Sorted (· ≤ ·)
      ((collectMessagesForMigration fetchEnvelope allUIDs maxCount).1.map
        (fun r => r.sourceGmailUID)) ∧
    collectMessagesForMigration fetchEnvelope allUIDs maxCount =
      collectMessagesForMigration fetchEnvelope allUIDs' maxCount := by
  have hflat : (chunksOf messageEnvelopeFetchBatchSize
      (collectUIDs allUIDs maxCount)).flatten = collectUIDs allUIDs maxCount :=
    chunksOf_flatten messageEnvelopeFetchBatchSize (by decide)
      (collectUIDs allUIDs maxCount).length _ le_rfl
  have hmain := chunkLoop_ok fetchEnvelope
    (chunksOf messageEnvelopeFetchBatchSize (collectUIDs allUIDs maxCount))
    (by intro u hu; exact hfetch u (hflat ▸ hu))
  have huids : (collectMessagesForMigration fetchEnvelope allUIDs maxCount).1.map
      (fun r => r.sourceGmailUID) = (sortUIDs allUIDs).take maxCount := by
    unfold collectMessagesForMigration
    rw [hmain.2, hflat, collectUIDs_eq_take]
  refine ⟨hmain.1, huids, ?_, ?_⟩
  · rw [huids]
    exact List.Pairwise.sublist (List.take_sublist maxCount (sortUIDs allUIDs))
      (List.sorted_insertionSort (· ≤ ·) allUIDs)
  · unfold collectMessagesForMigration collectUIDs
    rw [sortUIDs_perm_eq allUIDs allUIDs' hperm]

/-- Witness for claim C4: a concrete three-element UID set in two different
orders, truncated to two elements, with every envelope fetchable. -/
theorem collector_deterministic_witness :
    (collectMessagesForMigration (fun _ => some "m") [3, 1, 2] 2).2 = none ∧
    (collectMessagesForMigration (fun _ => some "m") [3, 1, 2] 2).1.map
        (fun r => r.sourceGmailUID) = (sortUIDs [3, 1, 2]).take 2 ∧
    List.Sorted (· ≤ ·)
      ((collectMessagesForMigration (fun _ => some "m") [3, 1, 2] 2).1.map
        (fun r => r.sourceGmailUID)) ∧
    collectMessagesForMigration (fun _ => some "m") [3, 1, 2] 2 =
      collectMessagesForMigration (fun _ => some "m") [2, 3, 1] 2 :=
  collector_emits_sorted_truncated_deterministic (fun _ => some "m")
    [3, 1, 2] [2, 3, 1] 2 (by decide) (by decide)

/-- Helper: a pool transition never increases the total number of
connections owned by the pool (idle plus checked out). -/
theorem poolStep_total_le (N : Nat) (s : PoolState) (e : PoolEvent)
    (s' : PoolState) (h : PoolStep N s e s') :
    s'.idle.length + s'.out.length ≤ s.idle.length + s.out.length := by
  cases h with
  | acquireHealthy c rest out nid hc => simp; omega
  | acquireReplace c rest out nid hc => simp; omega
  | acquireReplaceFailed c rest out nid hc => simp
  | acquireTimeout s => exact le_rfl
  | release c idle out nid hmem =>
    simp only [List.length_append, List.length_cons]
    rw [List.length_erase_of_mem hmem]
    have hpos : 0 < out.length := List.length_pos.mpr
      (fun he => by subst he; simp at hmem)
    simp
    omega

/-- Helper: in every reachable pool state the total number of connections
owned by the pool is at most the configured limit. -/
theorem poolReachable_total_le (N : Nat) (s : PoolState)
    (h : PoolReachable N s) : s.idle.length + s.out.length ≤ N := by
  induction h with
  | init s hs =>
    obtain ⟨h1, h2⟩ := hs
    rw [h1]
    simpa using h2
  | step s e s' hr hstep ih =>
    exact le_trans (poolStep_total_le N s e s' hstep) ih

/-- Claim C6: in every pool state reachable during a run, the number of
connections concurrently checked out and not yet released is at most the
configured connection limit; and every acquisition that hands a connection
to a caller hands a healthy one — a connection whose no-op health check
failed is logged out and discarded, and the connection handed out in its
place is the freshly created one. -/
theorem pool_capacity_bound_and_healthy_handout (N : Nat) (s : PoolState)
    (hreach : PoolReachable N s) (s₁ s₂ : PoolState) (c : PoolConn)
    (hstep : PoolStep N s₁ (PoolEvent.acquired c) s₂) :
    s.out.length ≤ N ∧ c.healthy = true := by
  constructor
  · have := poolReachable_total_le N s hreach
    omega
  · cases hstep with
    | acquireHealthy c rest out nid hc => exact hc
    | acquireReplace c rest out nid hc => rfl

/-- Witness for claim C6: a one-connection pool in its initial state, from
which the single healthy idle connection is acquired. -/
theorem pool_capacity_bound_witness :
    (PoolState.mk [] [PoolConn.mk 0 true] 1).out.length ≤ 1 ∧
    (PoolConn.mk 0 true).healthy = true :=
  pool_capacity_bound_and_healthy_handout 1
    (PoolState.mk [] [PoolConn.mk 0 true] 1)
    (PoolReachable.step (PoolState.mk [PoolConn.mk 0 true] [] 1)
      (PoolEvent.acquired (PoolConn.mk 0 true))
      (PoolState.mk [] [PoolConn.mk 0 true] 1)
      (PoolReachable.init (PoolState.mk [PoolConn.mk 0 true] [] 1)
        ⟨rfl, by decide⟩)
      (PoolStep.acquireHealthy (PoolConn.mk 0 true) [] [] 1 rfl))
    (PoolState.mk [PoolConn.mk 0 true] [] 1)
    (PoolState.mk [] [PoolConn.mk 0 true] 1)
    (PoolConn.mk 0 true)
    (PoolStep.acquireHealthy (PoolConn.mk 0 true) [] [] 1 rfl)

/-- Witness for claim C5: the dry-run frame property at a concrete request
whose Message-ID is absent from the target (append path). -/
theorem dry_run_no_mutation_witness :
    (∀ c ∈ (migrateMessage true (fun _ => []) (fun _ => some msgFixture)
        4 "mid-1").1, c.isAppendCmd = false ∧ c.isStoreCmd = false) ∧
    ∃ t, (migrateMessage false (fun _ => []) (fun _ => some msgFixture)
        4 "mid-1").1 =
      (migrateMessage true (fun _ => []) (fun _ => some msgFixture)
        4 "mid-1").1 ++ t :=
  dry_run_issues_no_append_or_store (fun _ => []) (fun _ => some msgFixture)
    4 "mid-1"

/-- Witness for claim C7: a two-UID search result yields the first UID and
the warning. -/
theorem findUID_multiple_witness :
    findUIDByMessageID [3, 5] = Except.ok (some 3) ∧
    findUIDWarnsMultiple [3, 5] = true :=
  findUID_multiple_returns_first_with_warning 3 5 []

/-- Witness for the amended claim C8: the outcome at the counterexample
schedule coincides with the outcome with no cancellation at all. -/
theorem acquire_wait_ignores_cancellation_witness :
    acquireWait 3600 none (some 0) = acquireWait 3600 none none ∧
    acquireWait 3600 none (some 0) = (AcquireWaitResult.timedOutErr, 3600) :=
  acquire_wait_ignores_cancellation 3600 none (some 0) none

/-- Witness for claim C9: the dry-run flag at the value false. -/
theorem dry_run_enabled_env_witness :
    (dryRunEnabled "false" = true ↔ "false" ≠ "") ∧
    dryRunEnabled "false" = true ∧ dryRunEnabled "0" = true ∧
    dryRunEnabled "" = false :=
  dry_run_enabled_iff_env_nonempty "false"
